import Mathlib

/-!
# SpamGuard language components — verification development

Shallow embedding of the two source files of the SpamGuard repository:

* `src/data/languages/index.ts` — the dataset resolver: normalizes a language
  code, serves a cached materialized `LanguageDataset`, and falls back to the
  English dataset for unregistered codes.
* `src/data/languages/schema.ts` — the dataset schema and the language
  detector/combinator built on the external `franc` classifier.

Modelling conventions:

* JavaScript strings are modelled by Lean `String`; `toLowerCase`/`trim`/
  `substring(0,2)`/`length` become the structural helpers `jsToLower`/
  `jsTrim`/`jsTake2`/`jsLength` below (all inputs of interest are ASCII,
  where these agree with the UTF-16 semantics of JavaScript).
* Numeric scores and confidences are modelled by `ℚ` (the source manipulates
  them only with `+`, `/`, comparisons, `Math.min`/`Math.max`).
* The per-language JSON data files (`en.json`, …) imported by `index.ts` are
  not part of the source under verification; their parsed contents are
  abstracted as a parameter `raw : String → RawLanguageData` giving the raw
  dataset registered for each of the nine keys of `languageDataMap`.  The
  keys themselves are literal in the source and are modelled concretely.
* The module-level mutable `datasetCache` (a JS `Map`) becomes an explicit
  association-list state threaded through the resolver; `console.warn`
  becomes a `warned : Bool` flag in the resolver's output.
* The external classifier `francAll(text, {minLength: 3})` (both call sites
  fix `minLength` to 3) is modelled as a parameter
  `classify : String → List (String × ℚ)` returning the ranked candidates.
* The runtime-trap operations of the source (the two `datasetCache.get(...)!`
  non-null assertions in `getLanguageData`) are modelled in a separate
  `Option`-valued variant `getLanguageData?` where a failing assertion
  returns `none`; totality of the source function is the statement that this
  variant never returns `none`.
-/

namespace SpamGuard

/-- JavaScript `String.prototype.trim()`: drop leading and trailing
whitespace.  Modelled structurally on the character list (rather than with
`String.trim`, whose position-based recursion does not reduce in the
kernel); the two agree on the ASCII inputs of interest. -/
def jsTrim (s : String) : String :=
  ⟨((s.data.dropWhile Char.isWhitespace).reverse.dropWhile
      Char.isWhitespace).reverse⟩

/-- JavaScript `String.prototype.toLowerCase()`, modelled structurally as a
character-wise lowercasing (ASCII). -/
def jsToLower (s : String) : String :=
  ⟨s.data.map Char.toLower⟩

/-- JavaScript `String.prototype.length` (for the ASCII inputs of interest,
UTF-16 units coincide with characters). -/
def jsLength (s : String) : ℕ :=
  s.data.length

/-- JavaScript `code.substring(0, 2)`: the first two characters. -/
def jsTake2 (s : String) : String :=
  ⟨s.data.take 2⟩

/-- Spam word category: the closed union type of `SpamWord.category`
in `schema.ts`. -/
inductive SpamCategory where
  | finance
  | urgency
  | adult
  | health
  | scam
  | marketing
  | phishing
  | lottery
  | drugs
  | crypto
  deriving DecidableEq

/-- `SpamWord` from `schema.ts`: word, score, category, optional
case-sensitivity flag. -/
structure SpamWord where
  word : String
  score : ℚ
  category : SpamCategory
  caseSensitive : Option Bool
  deriving DecidableEq

/-- `SpamSubjectPattern` from `schema.ts`: an uncompiled textual regex
pattern with a score and a name. -/
structure SpamSubjectPattern where
  pattern : String
  score : ℚ
  name : String
  deriving DecidableEq

/-- `TokenProbability` from `schema.ts`. -/
structure TokenProbability where
  spam : ℚ
  ham : ℚ
  deriving DecidableEq

/-- `LanguageDataset` from `schema.ts`.  JavaScript
`Record<string, number>`-style objects are modelled as association lists. -/
structure LanguageDataset where
  language : String
  languageName : String
  spamWords : List SpamWord
  spamSingleWords : List (String × ℚ)
  spamSubjectPatterns : List SpamSubjectPattern
  hamWords : List (String × ℚ)
  bayesianTokens : List (String × TokenProbability)
  urgencyWords : List String
  greetingWords : List String
  genericGreetings : List String
  deriving DecidableEq

/-- `RawLanguageData` from `index.ts`: the shape of a parsed language JSON
file, before `processDataset`. -/
structure RawLanguageData where
  language : String
  languageName : String
  spamWords : List SpamWord
  spamSingleWords : List (String × ℚ)
  spamSubjectPatterns : List SpamSubjectPattern
  hamWords : List (String × ℚ)
  bayesianTokens : List (String × TokenProbability)
  urgencyWords : List String
  greetingWords : List String
  genericGreetings : List String
  deriving DecidableEq

/-- `SUPPORTED_LANGUAGES` from `schema.ts`. -/
def SUPPORTED_LANGUAGES : List String :=
  ["en", "es", "fr", "de", "pt", "it", "nl", "pl", "ru"]

/-- `isSupportedLanguage` from `schema.ts`:
`SUPPORTED_LANGUAGES.includes(code)`. -/
def isSupportedLanguage (code : String) : Bool :=
  SUPPORTED_LANGUAGES.contains code

/-- The keys of `languageDataMap` in `index.ts`, in insertion order: the nine
language codes with a statically imported dataset. -/
def registeredLanguages : List String :=
  ["en", "es", "fr", "de", "pt", "it", "nl", "pl", "ru"]

/-- `languageDataMap` from `index.ts`.  The nine map values are the parsed
JSON data files, which are external inputs to the source under verification;
they are abstracted as the parameter `raw` (every registered value in the
source is a non-null object, hence `some`).  An absent key is `none`,
matching the `undefined` lookup result in JavaScript. -/
def languageDataMap (raw : String → RawLanguageData) (code : String) :
    Option RawLanguageData :=
  if code ∈ registeredLanguages then some (raw code) else none

/-- `processDataset` from `index.ts`: shapes a raw JSON dataset into a
`LanguageDataset`, rebuilding each subject pattern field-by-field. -/
def processDataset (raw : RawLanguageData) : LanguageDataset where
  language := raw.language
  languageName := raw.languageName
  spamWords := raw.spamWords
  spamSingleWords := raw.spamSingleWords
  spamSubjectPatterns := raw.spamSubjectPatterns.map
    (fun p => ⟨p.pattern, p.score, p.name⟩)
  hamWords := raw.hamWords
  bayesianTokens := raw.bayesianTokens
  urgencyWords := raw.urgencyWords
  greetingWords := raw.greetingWords
  genericGreetings := raw.genericGreetings

/-- The module-level `datasetCache` (a JS `Map<string, LanguageDataset>`),
modelled as an association list consulted with `List.lookup`.  Insertions
only happen on keys that are absent, so `cons` faithfully models
`Map.set`. -/
def Cache : Type := List (String × LanguageDataset)

/-- The inline normalization of `index.ts`:
`langCode.toLowerCase().trim()` (the spec's `normalize`). -/
def normalize (langCode : String) : String :=
  jsTrim (jsToLower langCode)

/-- Output of one `getLanguageData` call: the returned dataset, the cache
state after the call, and whether `console.warn` fired. -/
structure ResolveOut where
  dataset : LanguageDataset
  cache : Cache
  warned : Bool

/-- `getLanguageData` from `index.ts`, with the cache state explicit:
check the cache, else materialize a registered dataset, else warn (unless
the code is already "en") and serve the lazily cached English dataset. -/
def getLanguageData (raw : String → RawLanguageData) (langCode : String)
    (σ : Cache) : ResolveOut :=
  let normalizedCode := normalize langCode
  match List.lookup normalizedCode σ with
  | some cached => ⟨cached, σ, false⟩
  | none =>
    match languageDataMap raw normalizedCode with
    | some rawData =>
      let dataset := processDataset rawData
      ⟨dataset, (normalizedCode, dataset) :: σ, false⟩
    | none =>
      let warned := if normalizedCode = "en" then false else true
      match List.lookup "en" σ with
      | some enCached => ⟨enCached, σ, warned⟩
      | none =>
        let enDataset := processDataset (raw "en")
        ⟨enDataset, ("en", enDataset) :: σ, warned⟩

/-- `getLanguageData` with its two `datasetCache.get(...)!` non-null
assertions modelled as genuine failure points: each `get` returns `none`
when the key is absent, exactly where the JavaScript `!` assertion would be
wrong.  `getLanguageData?_eq_some` below shows the assertions never fail. -/
def getLanguageData? (raw : String → RawLanguageData) (langCode : String)
    (σ : Cache) : Option ResolveOut :=
  let normalizedCode := normalize langCode
  if (List.lookup normalizedCode σ).isSome then
    (List.lookup normalizedCode σ).map (fun cached => ⟨cached, σ, false⟩)
  else
    match languageDataMap raw normalizedCode with
    | some rawData =>
      let dataset := processDataset rawData
      some ⟨dataset, (normalizedCode, dataset) :: σ, false⟩
    | none =>
      let warned := if normalizedCode = "en" then false else true
      let σ' :=
        if (List.lookup "en" σ).isSome then σ
        else ("en", processDataset (raw "en")) :: σ
      (List.lookup "en" σ').map (fun enCached => ⟨enCached, σ', warned⟩)

/-- `hasLanguageData` from `index.ts`: the lookup in `languageDataMap` is
neither `null` nor `undefined` (every registered entry is non-null). -/
def hasLanguageData (raw : String → RawLanguageData) (langCode : String) :
    Bool :=
  (languageDataMap raw (normalize langCode)).isSome

/-- `getAvailableLanguages` from `index.ts`: registered codes whose entry is
non-null, in insertion order. -/
def getAvailableLanguages (raw : String → RawLanguageData) : List String :=
  (registeredLanguages.filter
    (fun code => (languageDataMap raw code).isSome))

/-- `getAllSupportedLanguages` from `index.ts`. -/
def getAllSupportedLanguages : List String :=
  SUPPORTED_LANGUAGES

/-- `preloadAllLanguages` from `index.ts`: materialize every registered
dataset not already cached. -/
def preloadAllLanguages (raw : String → RawLanguageData) (σ : Cache) :
    Cache :=
  registeredLanguages.foldl
    (fun τ code =>
      if (List.lookup code τ).isSome then τ
      else (code, processDataset (raw code)) :: τ) σ

/-- `clearCache` from `index.ts`. -/
def clearCache : Cache := []

/-- `getSpamWords` from `index.ts`: pure projection of `getLanguageData`. -/
def getSpamWords (raw : String → RawLanguageData) (langCode : String)
    (σ : Cache) : List SpamWord :=
  (getLanguageData raw langCode σ).dataset.spamWords

/-- `getHamWords` from `index.ts`. -/
def getHamWords (raw : String → RawLanguageData) (langCode : String)
    (σ : Cache) : List (String × ℚ) :=
  (getLanguageData raw langCode σ).dataset.hamWords

/-- `getBayesianTokens` from `index.ts`. -/
def getBayesianTokens (raw : String → RawLanguageData) (langCode : String)
    (σ : Cache) : List (String × TokenProbability) :=
  (getLanguageData raw langCode σ).dataset.bayesianTokens

/-- `getUrgencyWords` from `index.ts`. -/
def getUrgencyWords (raw : String → RawLanguageData) (langCode : String)
    (σ : Cache) : List String :=
  (getLanguageData raw langCode σ).dataset.urgencyWords

/-- `Option`-valued projections, inheriting the failure points of
`getLanguageData?`. -/
def getSpamWords? (raw : String → RawLanguageData) (langCode : String)
    (σ : Cache) : Option (List SpamWord) :=
  (getLanguageData? raw langCode σ).map (fun out => out.dataset.spamWords)

/-- `Option`-valued `getHamWords`. -/
def getHamWords? (raw : String → RawLanguageData) (langCode : String)
    (σ : Cache) : Option (List (String × ℚ)) :=
  (getLanguageData? raw langCode σ).map (fun out => out.dataset.hamWords)

/-- `Option`-valued `getBayesianTokens`. -/
def getBayesianTokens? (raw : String → RawLanguageData) (langCode : String)
    (σ : Cache) : Option (List (String × TokenProbability)) :=
  (getLanguageData? raw langCode σ).map
    (fun out => out.dataset.bayesianTokens)

/-- `Option`-valued `getUrgencyWords`. -/
def getUrgencyWords? (raw : String → RawLanguageData) (langCode : String)
    (σ : Cache) : Option (List String) :=
  (getLanguageData? raw langCode σ).map (fun out => out.dataset.urgencyWords)

/-- Cache states reachable through the resolver API: every cached entry sits
under a registered code and is the processed form of that code's registered
raw dataset. -/
def WellFormedCache (raw : String → RawLanguageData) (σ : Cache) : Prop :=
  ∀ code dataset, List.lookup code σ = some dataset →
    code ∈ registeredLanguages ∧ dataset = processDataset (raw code)

/-- `LanguageDetectionResult` from `schema.ts`.  `code` ranges over
`SUPPORTED_LANGUAGES`; `rawCode` is the original ISO 639-3 classifier
output (or the sentinel "und"). -/
structure LanguageDetectionResult where
  code : String
  confidence : ℚ
  isSupported : Bool
  rawCode : String
  deriving DecidableEq

/-- `ISO_639_3_TO_639_1` from `schema.ts`: the fixed ISO 639-3 → ISO 639-1
lookup table (supported set plus common additional languages). -/
def ISO_639_3_TO_639_1 : List (String × String) :=
  [("eng", "en"), ("spa", "es"), ("fra", "fr"), ("deu", "de"),
   ("por", "pt"), ("ita", "it"), ("nld", "nl"), ("pol", "pl"),
   ("rus", "ru"),
   ("cmn", "zh"), ("arb", "ar"), ("jpn", "ja"), ("kor", "ko"),
   ("tur", "tr"), ("hin", "hi"), ("vie", "vi"), ("tha", "th"),
   ("ukr", "uk"), ("ces", "cs"), ("swe", "sv"), ("dan", "da"),
   ("nor", "no"), ("fin", "fi"), ("hun", "hu"), ("ron", "ro"),
   ("bul", "bg"), ("ell", "el"), ("heb", "he"), ("ind", "id")]

/-- `ISO_639_3_TO_639_1[code] || code.substring(0, 2)` from `schema.ts`:
table lookup with first-two-characters truncation as fallback (every table
value is a non-empty string, so JavaScript `||` coincides with an
absent-key test). -/
def mapToIso639_1 (code3 : String) : String :=
  (ISO_639_3_TO_639_1.lookup code3).getD (jsTake2 code3)

/-- The `.reduce((sum, [, score]) => sum + score, 0)` accumulation used by
`detectLanguage` and `detectLanguages`. -/
def sumScores (results : List (String × ℚ)) : ℚ :=
  results.foldl (fun sum p => sum + p.2) 0

/-- The zero-confidence English default result of `schema.ts`
(`{code: "en", confidence: 0, isSupported: true, rawCode: "und"}`). -/
def defaultEnglishResult : LanguageDetectionResult :=
  ⟨"en", 0, true, "und"⟩

/-- `detectLanguage` from `schema.ts`, parametrized by the external
classifier (`francAll` with its fixed `minLength: 3` option).  The source's
default for `minLength` is 10, passed explicitly here. -/
def detectLanguage (classify : String → List (String × ℚ)) (text : String)
    (minLength : ℕ) : LanguageDetectionResult :=
  if text = "" ∨ jsLength (jsTrim text) < minLength then
    defaultEnglishResult
  else
    match classify text with
    | [] => defaultEnglishResult
    | (topCode, topScore) :: rest =>
      if topCode = "und" then defaultEnglishResult
      else
        let iso639_1 := mapToIso639_1 topCode
        let isSupported := isSupportedLanguage iso639_1
        let totalScore := sumScores (((topCode, topScore) :: rest).take 5)
        let confidence := if 0 < totalScore then topScore / totalScore else 0
        let finalCode := if isSupported then iso639_1 else "en"
        ⟨finalCode, min 1 (max 0 confidence), isSupported, topCode⟩

/-- `detectEmailLanguage` from `schema.ts`.  The source's default for
`subjectWeight` is 0.3, passed explicitly here. -/
def detectEmailLanguage (classify : String → List (String × ℚ))
    (subject body : String) (subjectWeight : ℚ) : LanguageDetectionResult :=
  let bodyWeight := 1 - subjectWeight
  let combinedText := jsTrim (subject ++ " " ++ body)
  if jsLength combinedText < 50 then
    detectLanguage classify combinedText 10
  else
    let subjectResult := detectLanguage classify subject 5
    let bodyResult := detectLanguage classify body 10
    if bodyResult.confidence > 7/10 then
      bodyResult
    else if subjectResult.code = bodyResult.code then
      ⟨bodyResult.code,
       max subjectResult.confidence bodyResult.confidence,
       bodyResult.isSupported, bodyResult.rawCode⟩
    else
      let weightedSubjectConfidence := subjectResult.confidence * subjectWeight
      let weightedBodyConfidence := bodyResult.confidence * bodyWeight
      if weightedBodyConfidence ≥ weightedSubjectConfidence then bodyResult
      else subjectResult

/-- `detectLanguages` from `schema.ts`: the ranked list variant, with the
normalization window being the first `limit` candidates.  The source's
default for `limit` is 5, passed explicitly here. -/
def detectLanguages (classify : String → List (String × ℚ)) (text : String)
    (limit : ℕ) : List LanguageDetectionResult :=
  if text = "" ∨ jsLength (jsTrim text) < 10 then
    [defaultEnglishResult]
  else
    let results := classify text
    if results = [] then
      [defaultEnglishResult]
    else
      let totalScore := sumScores (results.take limit)
      (results.take limit).map (fun p =>
        let iso639_1 := mapToIso639_1 p.1
        let isSupported := isSupportedLanguage iso639_1
        ⟨if isSupported then iso639_1 else "en",
         if 0 < totalScore then p.2 / totalScore else 0,
         isSupported, p.1⟩)

/-! ## Concrete instantiations used to evaluate the theorems

The resolver is parametric in the registered raw datasets and the detector
in the external classifier; the following closed instances let the theorems
be evaluated on concrete inputs. -/

/-- A concrete registered-dataset assignment: each code carries a minimal
raw dataset naming itself. -/
def sampleRaw : String → RawLanguageData :=
  fun code => ⟨code, code, [], [], [], [], [], [], [], []⟩

/-- A concrete classifier returning one candidate for every input. -/
def sampleUniformClassifier : String → List (String × ℚ) :=
  fun _ => [("eng", 1)]

/-- A concrete classifier ranking three candidates with scores 9, 3, 3 on
one fixed long text. -/
def sampleRankedClassifier : String → List (String × ℚ) :=
  fun t =>
    if t = "the quick brown fox jumps over the lazy dog" then
      [("eng", 9), ("spa", 3), ("fra", 3)]
    else []

/-- A concrete classifier whose top candidate on one fixed long text is the
undetermined sentinel. -/
def sampleUndeterminedClassifier : String → List (String × ℚ) :=
  fun t =>
    if t = "the quick brown fox jumps over the lazy dog" then
      [("und", 7), ("eng", 3)]
    else []

/-- A concrete classifier on which subject and body detections agree on
English with confidences 2/5 and 3/5. -/
def sampleAgreeingClassifier : String → List (String × ℚ) :=
  fun t =>
    if t = "Hello there my good friend" then [("eng", 2), ("spa", 3)]
    else if t = "this is a longer body text for testing here" then
      [("eng", 3), ("spa", 2)]
    else []

/-- A concrete classifier on which subject and body detections disagree
(Spanish vs English) with equal confidences 2/5. -/
def sampleDisagreeingClassifier : String → List (String × ℚ) :=
  fun t =>
    if t = "Hello there my good friend" then [("spa", 2), ("eng", 3)]
    else if t = "this is a longer body text for testing here" then
      [("eng", 2), ("spa", 3)]
    else []

/-! ## Theorems -/

/-- The `Option`-valued resolver always succeeds and agrees with the total
resolver: the two `datasetCache.get(...)!` assertions of the source never
fail. -/
theorem getLanguageData?_eq_some (raw : String → RawLanguageData)
    (langCode : String) (σ : Cache) :
    getLanguageData? raw langCode σ = some (getLanguageData raw langCode σ) := by
  unfold getLanguageData? getLanguageData
  cases h1 : List.lookup (normalize langCode) σ with
  | some cached => simp [h1]
  | none =>
    cases h2 : languageDataMap raw (normalize langCode) with
    | some rawData => simp [h1, h2]
    | none =>
      cases h3 : List.lookup "en" σ with
      | some enCached => simp [h1, h2, h3]
      | none => simp [h1, h2, h3]

/-- Claim C1: for every string input and every cache state, the resolver
`getLanguageData` returns a `LanguageDataset` without raising — its two
modelled failure points (the `!` assertions) never fire — and likewise the
field projections built on it never fail.  The remaining operations
(`hasLanguageData`, `getAvailableLanguages`, `getAllSupportedLanguages`,
`preloadAllLanguages`, `clearCache`) are total Lean functions by
construction. -/
theorem getLanguageData_never_fails (raw : String → RawLanguageData)
    (langCode : String) (σ : Cache) :
    (getLanguageData? raw langCode σ).isSome = true
    ∧ (getSpamWords? raw langCode σ).isSome = true
    ∧ (getHamWords? raw langCode σ).isSome = true
    ∧ (getBayesianTokens? raw langCode σ).isSome = true
    ∧ (getUrgencyWords? raw langCode σ).isSome = true := by
  simp [getSpamWords?, getHamWords?, getBayesianTokens?, getUrgencyWords?,
    getLanguageData?_eq_some raw langCode σ]

/-- Claim C4: `hasLanguageData` holds exactly when the normalized
(lowercased, trimmed) code is one of the nine registered codes. -/
theorem hasLanguageData_iff_registered (raw : String → RawLanguageData)
    (langCode : String) :
    hasLanguageData raw langCode = true ↔
      normalize langCode ∈
        (["en", "es", "fr", "de", "pt", "it", "nl", "pl", "ru"] :
          List String) := by
  unfold hasLanguageData languageDataMap
  split <;> simp_all [registeredLanguages]

/-- `getLanguageData` depends on its code argument only through
normalization. -/
theorem getLanguageData_congr (raw : String → RawLanguageData)
    {a b : String} (σ : Cache) (h : normalize a = normalize b) :
    getLanguageData raw a σ = getLanguageData raw b σ := by
  unfold getLanguageData
  rw [h]

/-- Resolving the same code again, starting from the cache produced by a
first resolution, returns the very dataset the first resolution cached. -/
theorem getLanguageData_stable (raw : String → RawLanguageData)
    (langCode : String) (σ : Cache) :
    (getLanguageData raw langCode
        (getLanguageData raw langCode σ).cache).dataset
      = (getLanguageData raw langCode σ).dataset := by
  unfold getLanguageData
  cases h1 : List.lookup (normalize langCode) σ with
  | some cached => simp [h1]
  | none =>
    cases h2 : languageDataMap raw (normalize langCode) with
    | some rawData => simp [h1, h2]
    | none =>
      have hne : normalize langCode ≠ "en" := by
        intro hEq
        rw [hEq] at h2
        simp [languageDataMap, registeredLanguages] at h2
      have hb : (normalize langCode == "en") = false :=
        beq_eq_false_iff_ne.2 hne
      cases h3 : List.lookup "en" σ with
      | some enCached => simp [h1, h2, h3]
      | none => simp [h1, h2, h3, List.lookup_cons, hb]

/-- Claim C2: two inputs with the same lowercased-and-trimmed form resolve
to the same dataset, and a second resolution from the first one's cache
state serves exactly the cached dataset of the first. -/
theorem getLanguageData_normalized_key_shared (raw : String → RawLanguageData)
    (a b : String) (σ : Cache) (h : normalize a = normalize b) :
    (getLanguageData raw a σ).dataset = (getLanguageData raw b σ).dataset
    ∧ (getLanguageData raw b (getLanguageData raw a σ).cache).dataset
        = (getLanguageData raw a σ).dataset := by
  constructor
  · rw [getLanguageData_congr raw σ h]
  · rw [getLanguageData_congr raw (getLanguageData raw a σ).cache h.symm]
    exact getLanguageData_stable raw a σ

/-- Claim C2 witness: `resolve(" EN ")`, `resolve("en")` and `resolve("En")`
from the empty cache all produce the dataset that the first call cached. -/
theorem getLanguageData_normalized_key_shared_witness :
    ((getLanguageData sampleRaw " EN " []).dataset
        = (getLanguageData sampleRaw "en" []).dataset
      ∧ (getLanguageData sampleRaw "en"
            (getLanguageData sampleRaw " EN " []).cache).dataset
          = (getLanguageData sampleRaw " EN " []).dataset)
    ∧ ((getLanguageData sampleRaw "En" []).dataset
        = (getLanguageData sampleRaw "en" []).dataset
      ∧ (getLanguageData sampleRaw "en"
            (getLanguageData sampleRaw "En" []).cache).dataset
          = (getLanguageData sampleRaw "En" []).dataset) :=
  ⟨getLanguageData_normalized_key_shared sampleRaw " EN " "en" [] (by decide),
   getLanguageData_normalized_key_shared sampleRaw "En" "en" [] (by decide)⟩

/-- Claim C3: on a well-formed cache, any input whose normalized form has no
registered dataset resolves to the English dataset, with the advisory
warning fired — consistently with the warning firing only for normalized
codes other than "en", since an unregistered normalized code is never
"en". -/
theorem getLanguageData_unregistered_fallback (raw : String → RawLanguageData)
    (langCode : String) (σ : Cache) (hwf : WellFormedCache raw σ)
    (hunreg : languageDataMap raw (normalize langCode) = none) :
    (getLanguageData raw langCode σ).dataset = processDataset (raw "en")
    ∧ (getLanguageData raw langCode σ).warned = true
    ∧ normalize langCode ≠ "en" := by
  have hnotmem : normalize langCode ∉ registeredLanguages := by
    intro hmem
    simp [languageDataMap, hmem] at hunreg
  have hne : normalize langCode ≠ "en" := by
    intro hEq
    rw [hEq] at hnotmem
    simp [registeredLanguages] at hnotmem
  have h1 : List.lookup (normalize langCode) σ = none := by
    cases h : List.lookup (normalize langCode) σ with
    | none => rfl
    | some cached => exact absurd (hwf _ _ h).1 hnotmem
  unfold getLanguageData
  cases h3 : List.lookup "en" σ with
  | some enCached =>
    have he := (hwf "en" enCached h3).2
    simp [h1, hunreg, h3, hne, he]
  | none => simp [h1, hunreg, h3, hne]

/-- Claim C3 witness: from the empty cache, the unregistered inputs "",
"xx" and "zz-unknown" all fall back to the English dataset with a
warning. -/
theorem getLanguageData_unregistered_fallback_witness :
    ((getLanguageData sampleRaw "xx" []).dataset
        = processDataset (sampleRaw "en")
      ∧ (getLanguageData sampleRaw "xx" []).warned = true
      ∧ normalize "xx" ≠ "en")
    ∧ ((getLanguageData sampleRaw "" []).dataset
        = processDataset (sampleRaw "en")
      ∧ (getLanguageData sampleRaw "" []).warned = true
      ∧ normalize "" ≠ "en")
    ∧ ((getLanguageData sampleRaw "zz-unknown" []).dataset
        = processDataset (sampleRaw "en")
      ∧ (getLanguageData sampleRaw "zz-unknown" []).warned = true
      ∧ normalize "zz-unknown" ≠ "en") :=
  have hwf : WellFormedCache sampleRaw [] := by
    intro code dataset h
    simp [List.lookup] at h
  ⟨getLanguageData_unregistered_fallback sampleRaw "xx" [] hwf (by decide),
   getLanguageData_unregistered_fallback sampleRaw "" [] hwf (by decide),
   getLanguageData_unregistered_fallback sampleRaw "zz-unknown" [] hwf
     (by decide)⟩

/-- Claim C9: when the text is empty or its trimmed length is below
`minLength`, `detectLanguage` returns exactly the zero-confidence English
default `{code: "en", confidence: 0, isSupported: true, rawCode: "und"}`. -/
theorem detectLanguage_short_text_default
    (classify : String → List (String × ℚ)) (text : String) (minLength : ℕ)
    (h : text = "" ∨ jsLength (jsTrim text) < minLength) :
    detectLanguage classify text minLength = ⟨"en", 0, true, "und"⟩ := by
  unfold detectLanguage
  rw [if_pos h]
  rfl

/-- Claim C9 witness: `detectLanguage("hi", 10)` returns the default, even
under a classifier that would report English with score 1. -/
theorem detectLanguage_short_text_default_witness :
    detectLanguage sampleUniformClassifier "hi" 10 = ⟨"en", 0, true, "und"⟩ :=
  detectLanguage_short_text_default sampleUniformClassifier "hi" 10
    (Or.inr (by decide))

/-- Claim C5: on any text passing the length guard whose classifier output
has a determinate top candidate, the confidence is the top score divided by
the sum of the scores of the first five candidates (0 when that sum is not
positive), clamped into [0,1] via `min`/`max`; and for every text and
minimum length the confidence lies in [0,1]. -/
theorem detectLanguage_confidence_spec
    (classify : String → List (String × ℚ)) (text : String) (minLength : ℕ)
    (topCode : String) (topScore : ℚ) (rest : List (String × ℚ))
    (h0 : text ≠ "") (h1 : minLength ≤ jsLength (jsTrim text))
    (h2 : classify text = (topCode, topScore) :: rest)
    (h3 : topCode ≠ "und") :
    (detectLanguage classify text minLength).confidence =
      min 1 (max 0
        (if 0 < sumScores (((topCode, topScore) :: rest).take 5)
         then topScore / sumScores (((topCode, topScore) :: rest).take 5)
         else 0))
    ∧ ∀ t m, 0 ≤ (detectLanguage classify t m).confidence
        ∧ (detectLanguage classify t m).confidence ≤ 1 := by
  constructor
  · unfold detectLanguage
    rw [if_neg (by push_neg; exact ⟨h0, h1⟩), h2]
    simp [h3]
  · intro t m
    unfold detectLanguage
    split
    · exact ⟨le_refl 0, by norm_num [defaultEnglishResult]⟩
    · split
      · exact ⟨le_refl 0, by norm_num [defaultEnglishResult]⟩
      · split
        · exact ⟨le_refl 0, by norm_num [defaultEnglishResult]⟩
        · exact ⟨le_min (by norm_num) (le_max_left 0 _), min_le_left 1 _⟩

section RatEvaluation

attribute [local semireducible] Rat.add Rat.mul Rat.inv Rat.sub

/-- Claim C5 witness: with ranked scores 9, 3, 3 the confidence is
9/15 = 3/5, and on the empty text the confidence is 0, within [0,1]. -/
theorem detectLanguage_confidence_spec_witness :
    (detectLanguage sampleRankedClassifier
        "the quick brown fox jumps over the lazy dog" 10).confidence = 3/5
    ∧ 0 ≤ (detectLanguage sampleRankedClassifier "" 10).confidence
    ∧ (detectLanguage sampleRankedClassifier "" 10).confidence ≤ 1 := by
  have h := detectLanguage_confidence_spec sampleRankedClassifier
    "the quick brown fox jumps over the lazy dog" 10 "eng" 9
    [("spa", 3), ("fra", 3)] (by decide) (by decide) rfl (by decide)
  exact ⟨by rw [h.1]; decide, (h.2 "" 10).1, (h.2 "" 10).2⟩

end RatEvaluation

/-- Claim C6: when the combined trimmed text is long enough, the body
detection's confidence is at most 0.7, and subject and body agree on the
code, `detectEmailLanguage` returns the body's code, `isSupported` and
`rawCode` with the maximum of the two confidences. -/
theorem detectEmailLanguage_agreement_max
    (classify : String → List (String × ℚ)) (subject body : String)
    (subjectWeight : ℚ)
    (h50 : 50 ≤ jsLength (jsTrim (subject ++ " " ++ body)))
    (hconf : (detectLanguage classify body 10).confidence ≤ 7/10)
    (hagree : (detectLanguage classify subject 5).code
        = (detectLanguage classify body 10).code) :
    detectEmailLanguage classify subject body subjectWeight =
      ⟨(detectLanguage classify body 10).code,
       max (detectLanguage classify subject 5).confidence
         (detectLanguage classify body 10).confidence,
       (detectLanguage classify body 10).isSupported,
       (detectLanguage classify body 10).rawCode⟩ := by
  unfold detectEmailLanguage
  rw [if_neg (Nat.not_lt.2 h50), if_neg (not_lt.2 hconf), if_pos hagree]

section RatEvaluationC6

attribute [local semireducible] Rat.add Rat.mul Rat.inv Rat.sub

/-- Claim C6 witness: agreeing subject/body detections with confidences 2/5
and 3/5 yield the body's code with confidence 3/5 (the max, not a blend). -/
theorem detectEmailLanguage_agreement_max_witness :
    detectEmailLanguage sampleAgreeingClassifier
      "Hello there my good friend"
      "this is a longer body text for testing here" (3/10)
      = ⟨"en", 3/5, true, "eng"⟩ := by
  have h := detectEmailLanguage_agreement_max sampleAgreeingClassifier
    "Hello there my good friend"
    "this is a longer body text for testing here" (3/10)
    (by decide) (by decide) (by decide)
  rw [h]
  decide

end RatEvaluationC6

/-- Claim C7: under the same guards, when subject and body disagree on the
code, the subject result is returned exactly when its weighted confidence
strictly exceeds the body's weighted confidence; otherwise — ties
included — the body result is returned unchanged. -/
theorem detectEmailLanguage_weighted_tiebreak
    (classify : String → List (String × ℚ)) (subject body : String)
    (subjectWeight : ℚ)
    (h50 : 50 ≤ jsLength (jsTrim (subject ++ " " ++ body)))
    (hconf : (detectLanguage classify body 10).confidence ≤ 7/10)
    (hdis : (detectLanguage classify subject 5).code
        ≠ (detectLanguage classify body 10).code) :
    ((detectLanguage classify subject 5).confidence * subjectWeight ≤
        (detectLanguage classify body 10).confidence * (1 - subjectWeight) →
      detectEmailLanguage classify subject body subjectWeight
        = detectLanguage classify body 10)
    ∧ ((detectLanguage classify body 10).confidence * (1 - subjectWeight) <
        (detectLanguage classify subject 5).confidence * subjectWeight →
      detectEmailLanguage classify subject body subjectWeight
        = detectLanguage classify subject 5) := by
  unfold detectEmailLanguage
  rw [if_neg (Nat.not_lt.2 h50), if_neg (not_lt.2 hconf), if_neg hdis]
  constructor
  · intro hle
    rw [if_pos hle]
  · intro hlt
    rw [if_neg (not_le.2 hlt)]

section RatEvaluationC7

attribute [local semireducible] Rat.add Rat.mul Rat.inv Rat.sub

/-- Claim C7 witness: with `subjectWeight = 1/2` and equal confidences 2/5
on disagreeing codes, the weighted confidences tie and the body result is
returned. -/
theorem detectEmailLanguage_weighted_tiebreak_witness :
    detectEmailLanguage sampleDisagreeingClassifier
      "Hello there my good friend"
      "this is a longer body text for testing here" (1/2)
      = ⟨"en", 2/5, true, "eng"⟩ := by
  have h := (detectEmailLanguage_weighted_tiebreak sampleDisagreeingClassifier
    "Hello there my good friend"
    "this is a longer body text for testing here" (1/2)
    (by decide) (by decide) (by decide)).1 (by decide)
  rw [h]
  decide

end RatEvaluationC7

/-- Claim C8: on any sufficiently long text with non-empty classifier
output, `detectLanguages` returns exactly the first `limit` candidates in
classifier order, each normalized by the sum of the scores of those same
first `limit` (or fewer) candidates, mapped to a supported code with
unsupported codes falling back to "en". -/
theorem detectLanguages_limit_window
    (classify : String → List (String × ℚ)) (text : String) (limit : ℕ)
    (h0 : text ≠ "") (h1 : 10 ≤ jsLength (jsTrim text))
    (h2 : classify text ≠ []) :
    detectLanguages classify text limit =
      ((classify text).take limit).map (fun p =>
        ⟨if isSupportedLanguage (mapToIso639_1 p.1) then mapToIso639_1 p.1
          else "en",
         if 0 < sumScores ((classify text).take limit)
         then p.2 / sumScores ((classify text).take limit) else 0,
         isSupportedLanguage (mapToIso639_1 p.1), p.1⟩) := by
  unfold detectLanguages
  rw [if_neg (by push_neg; exact ⟨h0, h1⟩), if_neg h2]

section RatEvaluationC8

attribute [local semireducible] Rat.add Rat.mul Rat.inv Rat.sub

/-- Claim C8 witness: with `limit = 3` and scores 9, 3, 3, the confidences
are 3/5, 1/5, 1/5 — summing to 1 — in classifier order. -/
theorem detectLanguages_limit_window_witness :
    detectLanguages sampleRankedClassifier
      "the quick brown fox jumps over the lazy dog" 3
      = [⟨"en", 3/5, true, "eng"⟩, ⟨"es", 1/5, true, "spa"⟩,
         ⟨"fr", 1/5, true, "fra"⟩] := by
  have h := detectLanguages_limit_window sampleRankedClassifier
    "the quick brown fox jumps over the lazy dog" 3
    (by decide) (by decide) (by decide)
  rw [h]
  decide

end RatEvaluationC8

/-- Claim C10: `detectLanguages` has no special case for an "und" top
candidate — the entry is kept, its code falling back to "en" through the
two-character truncation "un" (unsupported), with `rawCode = "und"` and the
normalized (possibly non-zero) confidence — whereas `detectLanguage`
returns the zero-confidence English default with `isSupported = true` on
the same classifier output. -/
theorem detectLanguages_und_not_special
    (classify : String → List (String × ℚ)) (text : String) (limit : ℕ)
    (s : ℚ) (rest : List (String × ℚ))
    (h0 : text ≠ "") (h1 : 10 ≤ jsLength (jsTrim text))
    (h2 : classify text = ("und", s) :: rest) (h3 : 1 ≤ limit) :
    (detectLanguages classify text limit).head? =
      some ⟨"en",
        if 0 < sumScores ((("und", s) :: rest).take limit)
        then s / sumScores ((("und", s) :: rest).take limit) else 0,
        false, "und"⟩
    ∧ detectLanguage classify text 10 = ⟨"en", 0, true, "und"⟩ := by
  obtain ⟨m, rfl⟩ : ∃ m, limit = m + 1 := ⟨limit - 1, by omega⟩
  have hguard : ¬(text = "" ∨ jsLength (jsTrim text) < 10) := by
    push_neg
    exact ⟨h0, h1⟩
  constructor
  · unfold detectLanguages
    rw [if_neg hguard, h2]
    rw [if_neg (by simp)]
    have hm : mapToIso639_1 "und" = "un" := by decide
    have hs : isSupportedLanguage "un" = false := by decide
    simp [hm, hs]
  · unfold detectLanguage
    rw [if_neg hguard, h2]
    rfl

section RatEvaluationC10

attribute [local semireducible] Rat.add Rat.mul Rat.inv Rat.sub

/-- Claim C10 witness: classifier output `[("und", 7), ("eng", 3)]` gives a
first `detectLanguages` entry with confidence 7/10 and
`isSupported = false`, while `detectLanguage` returns the zero-confidence
default. -/
theorem detectLanguages_und_not_special_witness :
    (detectLanguages sampleUndeterminedClassifier
        "the quick brown fox jumps over the lazy dog" 5).head? =
      some ⟨"en", 7/10, false, "und"⟩
    ∧ detectLanguage sampleUndeterminedClassifier
        "the quick brown fox jumps over the lazy dog" 10
      = ⟨"en", 0, true, "und"⟩ := by
  have h := detectLanguages_und_not_special sampleUndeterminedClassifier
    "the quick brown fox jumps over the lazy dog" 5 7 [("eng", 3)]
    (by decide) (by decide) rfl (by decide)
  exact ⟨by rw [h.1]; decide, h.2⟩

end RatEvaluationC10

/-! ## Cache well-formedness is an invariant of the resolver API

These lemmas justify the `WellFormedCache` hypothesis of the fallback
theorem: the invariant holds for the empty cache (the initial state and the
state after `clearCache`) and is preserved by `getLanguageData` and
`preloadAllLanguages`, so it holds in every program-reachable cache
state. -/

/-- The empty cache is well-formed. -/
theorem wellFormedCache_nil (raw : String → RawLanguageData) :
    WellFormedCache raw [] := by
  intro code dataset h
  simp [List.lookup] at h

/-- The cache produced by `clearCache` is well-formed. -/
theorem wellFormedCache_clearCache (raw : String → RawLanguageData) :
    WellFormedCache raw clearCache :=
  wellFormedCache_nil raw

/-- Inserting the processed dataset of a registered code preserves cache
well-formedness. -/
theorem wellFormedCache_insert (raw : String → RawLanguageData) (σ : Cache)
    (hwf : WellFormedCache raw σ) (key : String)
    (hkey : key ∈ registeredLanguages) :
    WellFormedCache raw ((key, processDataset (raw key)) :: σ) := by
  intro code dataset h
  rw [List.lookup_cons] at h
  cases hc : code == key with
  | true =>
    rw [hc] at h
    cases h
    exact ⟨by rwa [beq_iff_eq.1 hc], by rw [beq_iff_eq.1 hc]⟩
  | false =>
    rw [hc] at h
    exact hwf code dataset h

/-- Every `getLanguageData` call preserves cache well-formedness. -/
theorem wellFormedCache_getLanguageData (raw : String → RawLanguageData)
    (langCode : String) (σ : Cache) (hwf : WellFormedCache raw σ) :
    WellFormedCache raw (getLanguageData raw langCode σ).cache := by
  unfold getLanguageData
  cases h1 : List.lookup (normalize langCode) σ with
  | some cached => simpa [h1] using hwf
  | none =>
    cases h2 : languageDataMap raw (normalize langCode) with
    | some rawData =>
      have hmem : normalize langCode ∈ registeredLanguages := by
        by_contra hm
        simp [languageDataMap, hm] at h2
      have hval : rawData = raw (normalize langCode) := by
        rw [languageDataMap, if_pos hmem] at h2
        exact (Option.some.inj h2).symm
      simpa [h1, h2, hval] using wellFormedCache_insert raw σ hwf _ hmem
    | none =>
      cases h3 : List.lookup "en" σ with
      | some enCached => simpa [h1, h2, h3] using hwf
      | none =>
        simpa [h1, h2, h3] using
          wellFormedCache_insert raw σ hwf "en" (by decide)

/-- `preloadAllLanguages` preserves cache well-formedness (stated for any
worklist of registered codes, by induction on the fold). -/
theorem wellFormedCache_preload_aux (raw : String → RawLanguageData)
    (l : List String) (hl : ∀ c ∈ l, c ∈ registeredLanguages) (σ : Cache)
    (hwf : WellFormedCache raw σ) :
    WellFormedCache raw
      (l.foldl
        (fun τ code =>
          if (List.lookup code τ).isSome then τ
          else (code, processDataset (raw code)) :: τ) σ) := by
  induction l generalizing σ with
  | nil => exact hwf
  | cons c cs ih =>
    rw [List.foldl_cons]
    refine ih (fun x hx => hl x (List.mem_cons_of_mem c hx)) _ ?_
    cases h : (List.lookup c σ).isSome with
    | true => simpa [h] using hwf
    | false =>
      simpa [h] using
        wellFormedCache_insert raw σ hwf c (hl c (List.mem_cons_self c cs))

/-- `preloadAllLanguages` preserves cache well-formedness. -/
theorem wellFormedCache_preloadAllLanguages (raw : String → RawLanguageData)
    (σ : Cache) (hwf : WellFormedCache raw σ) :
    WellFormedCache raw (preloadAllLanguages raw σ) :=
  wellFormedCache_preload_aux raw registeredLanguages (fun _ h => h) σ hwf

end SpamGuard
